import Mathlib

set_option maxRecDepth 4096

/-! Verification of the jwkset JWK codec (jwk.go).

Shallow embedding conventions: a Go byte is a natural number below 256 and a
Go byte slice is a list of naturals; a Go big.Int produced by SetBytes is a
natural number; Go errors are modelled by the category a caller can observe
through errors.Is, since the codec wraps one of two sentinel errors or a
foreign error. An interface-typed Go value that may be nil is an Option.
The JWKMarshal wire record uses omitempty on every string field, so an absent
field and the empty string are the same wire state and are modelled as "". -/

instance {ε α : Type} [DecidableEq ε] [DecidableEq α] : DecidableEq (Except ε α) :=
  fun x y =>
    match x, y with
    | Except.error a, Except.error b =>
      if h : a = b then isTrue (by rw [h])
      else isFalse (by intro he; cases he; exact h rfl)
    | Except.error _, Except.ok _ => isFalse (by intro h; cases h)
    | Except.ok _, Except.error _ => isFalse (by intro h; cases h)
    | Except.ok a, Except.ok b =>
      if h : a = b then isTrue (by rw [h])
      else isFalse (by intro he; cases he; exact h rfl)

/-- Encoding table of the base64url alphabet (RFC 4648 section 5), as used by
the Go base64.RawURLEncoding codec: A-Z, a-z, 0-9, minus, underscore. -/
def sextetToChar (n : Nat) : Char :=
  if n < 26 then Char.ofNat (65 + n)
  else if n < 52 then Char.ofNat (97 + (n - 26))
  else if n < 62 then Char.ofNat (48 + (n - 52))
  else if n = 62 then Char.ofNat 45
  else Char.ofNat 95

/-- Decoding table of the base64url alphabet; characters outside the alphabet
decode to none, as in the Go decoder. -/
def charToSextet (c : Char) : Option Nat :=
  let n := c.toNat
  if 65 ≤ n ∧ n ≤ 90 then some (n - 65)
  else if 97 ≤ n ∧ n ≤ 122 then some (26 + (n - 97))
  else if 48 ≤ n ∧ n ≤ 57 then some (52 + (n - 48))
  else if n = 45 then some 62
  else if n = 95 then some 63
  else none

/-- Unpadded base64url encoding of a byte list: each group of three bytes
becomes four characters and a final group of one or two bytes becomes two or
three characters, as produced by base64.RawURLEncoding.EncodeToString. -/
def b64encodeBytes : List Nat → List Char
  | [] => []
  | [b1] => [sextetToChar (b1 / 4), sextetToChar (b1 % 4 * 16)]
  | [b1, b2] =>
      [sextetToChar (b1 / 4), sextetToChar (b1 % 4 * 16 + b2 / 16),
        sextetToChar (b2 % 16 * 4)]
  | b1 :: b2 :: b3 :: rest =>
      sextetToChar (b1 / 4) :: sextetToChar (b1 % 4 * 16 + b2 / 16) ::
        sextetToChar (b2 % 16 * 4 + b3 / 64) :: sextetToChar (b3 % 64) ::
          b64encodeBytes rest

/-- Unpadded base64url decoding of a character list: a final quantum of one
character is rejected, invalid characters are rejected, and as in the default
(non strict) Go decoder the unused low bits of a final incomplete quantum are
discarded. -/
def b64decodeChars : List Char → Option (List Nat)
  | [] => some []
  | [_] => none
  | [c1, c2] =>
    match charToSextet c1, charToSextet c2 with
    | some s1, some s2 => some [s1 * 4 + s2 / 16]
    | _, _ => none
  | [c1, c2, c3] =>
    match charToSextet c1, charToSextet c2, charToSextet c3 with
    | some s1, some s2, some s3 =>
        some [s1 * 4 + s2 / 16, s2 % 16 * 16 + s3 / 4]
    | _, _, _ => none
  | c1 :: c2 :: c3 :: c4 :: rest =>
    match charToSextet c1, charToSextet c2, charToSextet c3, charToSextet c4,
        b64decodeChars rest with
    | some s1, some s2, some s3, some s4, some bs =>
        some ((s1 * 4 + s2 / 16) :: (s2 % 16 * 16 + s3 / 4) ::
          (s3 % 4 * 64 + s4) :: bs)
    | _, _, _, _, _ => none

/-- Model of base64.RawURLEncoding.EncodeToString. -/
def base64RawURLEncode (bs : List Nat) : String := String.mk (b64encodeBytes bs)

/-- Model of base64.RawURLEncoding.DecodeString. -/
def base64RawURLDecode (s : String) : Option (List Nat) := b64decodeChars s.data

/-- Model of strings.TrimRight applied with the cut set holding only the
padding character (code 61). -/
def trimRightEqs (s : String) : String :=
  String.mk ((s.data.reverse.dropWhile (fun c => c == Char.ofNat 61)).reverse)

/-- base64urlTrailingPadding (jwk.go, second listing lines 733 to 736):
removes trailing padding, then applies raw unpadded base64url decoding. -/
def base64urlTrailingPadding (s : String) : Option (List Nat) :=
  base64RawURLDecode (trimRightEqs s)

/-- Value of a big endian byte list, as computed by the SetBytes method of a
Go big.Int. -/
def natFromBytes (bs : List Nat) : Nat := bs.foldl (fun a b => a * 256 + b) 0

/-- Fueled worker for natToBytes; the fuel only bounds the recursion depth. -/
def natToBytesAux : Nat → Nat → List Nat
  | 0, _ => []
  | fuel + 1, n => if n = 0 then [] else natToBytesAux fuel (n / 256) ++ [n % 256]

/-- Minimal big endian byte representation of a natural number, as produced by
the Bytes method of a non negative Go big.Int; zero yields the empty list.
Fuel n is enough because the byte count of n never exceeds n. -/
def natToBytes (n : Nat) : List Nat := natToBytesAux n n

/-- bigIntToBase64RawURL (jwk.go, second listing lines 738 to 740). -/
def bigIntToBase64RawURL (n : Nat) : String := base64RawURLEncode (natToBytes n)

/-- Model of the Go conversion int(x.Uint64()) applied to a non negative
big.Int holding u: the low 64 bits of u reinterpreted as a signed 64 bit
integer, as performed on the public exponent in KeyUnmarshal. -/
def goIntOfUint64 (u : Nat) : Int :=
  if u % 2 ^ 64 < 2 ^ 63 then ((u % 2 ^ 64 : Nat) : Int)
  else ((u % 2 ^ 64 : Nat) : Int) - 2 ^ 64

/-- Error categories of the codec, as a caller can distinguish them through
errors.Is: keyUnmarshalParameter wraps the sentinel ErrKeyUnmarshalParameter,
unsupportedKeyType wraps the sentinel ErrUnsupportedKeyType, base64Decode is a
field decode failure wrapping a base64 CorruptInputError, and rsaValidate is
the wrapped error of the Validate method of a Go rsa.PrivateKey. The last two
wrap neither sentinel. -/
inductive ErrKind
  | keyUnmarshalParameter
  | unsupportedKeyType
  | base64Decode
  | rsaValidate
deriving DecidableEq

/-- The three elliptic curves the codec resolves; the Name field of the Go
curve parameters supplies the wire name. -/
inductive ECCurve
  | p256
  | p384
  | p521
deriving DecidableEq

/-- The registered curve name, Params().Name in Go. -/
def ECCurve.name : ECCurve → String
  | ECCurve.p256 => "P-256"
  | ECCurve.p384 => "P-384"
  | ECCurve.p521 => "P-521"

/-- One entry of the precomputed CRT data of a Go rsa.PrivateKey: the exponent
d mod (prime - 1), the Chinese remainder coefficient, and the product of all
preceding primes (the meaning the Go standard library gives the R field). -/
structure GoCRTValue where
  exp : Nat
  coeff : Nat
  r : Nat
deriving DecidableEq

/-- A Go rsa.PrivateKey: public modulus and exponent, private exponent, the
list of primes, and the precomputed values the codec reads and writes. The
exponent keeps the signed Go int type. -/
structure RSAPrivate where
  n : Nat
  e : Int
  d : Nat
  primes : List Nat
  dp : Nat
  dq : Nat
  qinv : Nat
  crtValues : List GoCRTValue
deriving DecidableEq

/-- The dynamic type of the Key field of a KeyWithMeta: one constructor per
arm of the type switch in KeyMarshal. An Ed25519 private key is its full 64
byte Go form, seed followed by public half; an Ed25519 public key is its 32
byte form. The unsupported constructor stands for every other dynamic type. -/
inductive GoKey
  | ecPriv (curve : ECCurve) (x y d : Nat)
  | ecPub (curve : ECCurve) (x y : Nat)
  | edPriv (key : List Nat)
  | edPub (key : List Nat)
  | rsaPriv (k : RSAPrivate)
  | rsaPub (n : Nat) (e : Int)
  | octKey (key : List Nat)
  | unsupported (typeName : String)
deriving DecidableEq

/-- KeyWithMeta (jwk.go): a key of interface type, nil modelled as none, with
its key identifier. -/
structure KeyWithMeta where
  key : Option GoKey
  keyID : String
deriving DecidableEq

/-- OtherPrimes (jwk.go, second listing): one extra CRT triple of a multi
prime RSA key, all fields wire strings with omitempty. -/
structure OtherPrimes where
  D : String := ""
  R : String := ""
  T : String := ""
deriving DecidableEq

/-- JWKMarshal (jwk.go, second listing): the full wire record. Every string
field carries omitempty, so "" models an absent field. -/
structure JWKMarshal where
  ALG : String := ""
  CRV : String := ""
  D : String := ""
  DP : String := ""
  DQ : String := ""
  E : String := ""
  K : String := ""
  KID : String := ""
  KTY : String := ""
  N : String := ""
  OTH : List OtherPrimes := []
  P : String := ""
  Q : String := ""
  QI : String := ""
  X : String := ""
  Y : String := ""
deriving DecidableEq

/-- KeyMarshalOptions (jwk.go). -/
structure KeyMarshalOptions where
  asymmetricPrivate : Bool
  symmetric : Bool
deriving DecidableEq

/-- KeyUnmarshalOptions (jwk.go). -/
structure KeyUnmarshalOptions where
  asymmetricPrivate : Bool
  symmetric : Bool
deriving DecidableEq

/-- KeyMarshal (jwk.go, second listing lines 459 to 529). The Go record starts
zero valued and each arm assigns its fields, so each arm is written as a record
whose unassigned fields keep the default "". The RSA public exponent passes
through big.NewInt(int64(e)), whose Bytes method yields the magnitude bytes.
Indexing Primes beyond its length panics in Go; the model reads a default 0,
which no claim exercises. The Go guard len(CRTValues) > 0 around building OTH
is dropped because mapping the empty list already yields the empty list. -/
def KeyMarshal (meta : KeyWithMeta) (options : KeyMarshalOptions) :
    Except ErrKind JWKMarshal :=
  match meta.key with
  | some (GoKey.ecPriv curve x y d) =>
      Except.ok { CRV := curve.name, X := bigIntToBase64RawURL x,
                  Y := bigIntToBase64RawURL y, KTY := "EC",
                  D := if options.asymmetricPrivate then bigIntToBase64RawURL d else "",
                  KID := meta.keyID }
  | some (GoKey.ecPub curve x y) =>
      Except.ok { CRV := curve.name, X := bigIntToBase64RawURL x,
                  Y := bigIntToBase64RawURL y, KTY := "EC", KID := meta.keyID }
  | some (GoKey.edPriv key) =>
      Except.ok { ALG := "EdDSA", CRV := "Ed25519",
                  X := base64RawURLEncode (key.drop 32), KTY := "OKP",
                  D := if options.asymmetricPrivate then
                         base64RawURLEncode (key.take 32)
                       else "",
                  KID := meta.keyID }
  | some (GoKey.edPub key) =>
      Except.ok { ALG := "EdDSA", CRV := "Ed25519",
                  X := base64RawURLEncode key, KTY := "OKP", KID := meta.keyID }
  | some (GoKey.rsaPriv k) =>
      Except.ok { E := base64RawURLEncode (natToBytes k.e.natAbs),
                  N := bigIntToBase64RawURL k.n, KTY := "RSA",
                  D := if options.asymmetricPrivate then bigIntToBase64RawURL k.d else "",
                  P := if options.asymmetricPrivate then
                         bigIntToBase64RawURL (k.primes.getD 0 0)
                       else "",
                  Q := if options.asymmetricPrivate then
                         bigIntToBase64RawURL (k.primes.getD 1 0)
                       else "",
                  DP := if options.asymmetricPrivate then bigIntToBase64RawURL k.dp else "",
                  DQ := if options.asymmetricPrivate then bigIntToBase64RawURL k.dq else "",
                  QI := if options.asymmetricPrivate then bigIntToBase64RawURL k.qinv else "",
                  OTH := if options.asymmetricPrivate then
                           k.crtValues.map (fun c =>
                             { D := bigIntToBase64RawURL c.exp,
                               T := bigIntToBase64RawURL c.coeff,
                               R := bigIntToBase64RawURL c.r })
                         else [],
                  KID := meta.keyID }
  | some (GoKey.rsaPub n e) =>
      Except.ok { E := base64RawURLEncode (natToBytes e.natAbs),
                  N := bigIntToBase64RawURL n, KTY := "RSA", KID := meta.keyID }
  | some (GoKey.octKey key) =>
      if options.symmetric then
        Except.ok { KTY := "oct", K := base64RawURLEncode key, KID := meta.keyID }
      else Except.error ErrKind.unsupportedKeyType
  | some (GoKey.unsupported _) => Except.error ErrKind.unsupportedKeyType
  | none => Except.error ErrKind.unsupportedKeyType

/-- The curve switch of the EC arm of KeyUnmarshal. -/
def resolveECCurve (s : String) : Option ECCurve :=
  if s = "P-256" then some ECCurve.p256
  else if s = "P-384" then some ECCurve.p384
  else if s = "P-521" then some ECCurve.p521
  else none

/-- The loop of KeyUnmarshal over the OTH entries: each entry must have all
three fields present and decodable; it contributes one CRT value and one extra
prime taken from the R field (the source marks that prime read with a TODO
saying it is incorrect). Returns the CRT values and the extra primes in entry
order. -/
def unmarshalOth : List OtherPrimes → Except ErrKind (List GoCRTValue × List Nat)
  | [] => Except.ok ([], [])
  | o :: rest =>
    if o.R = "" ∨ o.D = "" ∨ o.T = "" then Except.error ErrKind.keyUnmarshalParameter
    else
      match base64urlTrailingPadding o.D with
      | none => Except.error ErrKind.base64Decode
      | some othD =>
        match base64urlTrailingPadding o.T with
        | none => Except.error ErrKind.base64Decode
        | some othT =>
          match base64urlTrailingPadding o.R with
          | none => Except.error ErrKind.base64Decode
          | some othR =>
            match unmarshalOth rest with
            | Except.error e => Except.error e
            | Except.ok (cs, ps) =>
                Except.ok
                  (⟨natFromBytes othD, natFromBytes othT, natFromBytes othR⟩ :: cs,
                    natFromBytes othR :: ps)

/-- Model of checkPub in the Go crypto/rsa package, called first by Validate:
the public exponent must be at least 2 and at most 2 ^ 31 - 1 (the modulus is
never nil on this path). -/
def checkPub (e : Int) : Bool := decide (2 ≤ e) && decide (e ≤ 2 ^ 31 - 1)

/-- Model of the Validate method of a Go rsa.PrivateKey: the public key checks
of checkPub, every prime above one, the primes multiplying to the modulus, and
d times e congruent to 1 modulo p - 1 for every prime p (Euclidean remainder,
as the Mod method of big.Int computes). -/
def rsaValidate (n : Nat) (e : Int) (d : Nat) (primes : List Nat) : Bool :=
  checkPub e &&
    primes.all (fun p => decide (1 < p)) &&
      (primes.foldl (fun a p => a * p) 1 == n) &&
        primes.all (fun p => (e * (d : Int)) % ((p : Int) - 1) == 1)

/-- KeyUnmarshal (jwk.go, second listing lines 539 to 724). The Go switch on
the KTY string is an equality chain; every other structure is kept: the order
of presence checks, field decodes, the curve switch, the Ed25519 length checks
before and after reassembling seed and public half, the RSA private guard over
all six fields, the OTH loop, the Validate call, and the RSA fallthrough that
returns a nil key when private reconstruction is requested but a private field
is absent. The two prime RSA path and the OTH path are merged by appending the
extra primes of the OTH loop to the first two, which is the identity when OTH
is empty, exactly as in the source. -/
def KeyUnmarshal (jwk : JWKMarshal) (options : KeyUnmarshalOptions) :
    Except ErrKind KeyWithMeta :=
  if jwk.KTY = "EC" then
    if jwk.CRV = "" ∨ jwk.X = "" ∨ jwk.Y = "" then
      Except.error ErrKind.keyUnmarshalParameter
    else
      match base64urlTrailingPadding jwk.X with
      | none => Except.error ErrKind.base64Decode
      | some x =>
        match base64urlTrailingPadding jwk.Y with
        | none => Except.error ErrKind.base64Decode
        | some y =>
          match resolveECCurve jwk.CRV with
          | none => Except.error ErrKind.keyUnmarshalParameter
          | some curve =>
            if options.asymmetricPrivate ∧ jwk.D ≠ "" then
              match base64urlTrailingPadding jwk.D with
              | none => Except.error ErrKind.base64Decode
              | some d =>
                  Except.ok ⟨some (GoKey.ecPriv curve (natFromBytes x)
                    (natFromBytes y) (natFromBytes d)), jwk.KID⟩
            else
              Except.ok ⟨some (GoKey.ecPub curve (natFromBytes x)
                (natFromBytes y)), jwk.KID⟩
  else if jwk.KTY = "OKP" then
    if jwk.CRV ≠ "Ed25519" then Except.error ErrKind.keyUnmarshalParameter
    else if jwk.X = "" then Except.error ErrKind.keyUnmarshalParameter
    else
      match base64urlTrailingPadding jwk.X with
      | none => Except.error ErrKind.base64Decode
      | some pub =>
        if pub.length ≠ 32 then Except.error ErrKind.keyUnmarshalParameter
        else if options.asymmetricPrivate ∧ jwk.D ≠ "" then
          match base64urlTrailingPadding jwk.D with
          | none => Except.error ErrKind.base64Decode
          | some priv =>
            if (priv ++ pub).length ≠ 64 then
              Except.error ErrKind.keyUnmarshalParameter
            else Except.ok ⟨some (GoKey.edPriv (priv ++ pub)), jwk.KID⟩
        else Except.ok ⟨some (GoKey.edPub pub), jwk.KID⟩
  else if jwk.KTY = "RSA" then
    if jwk.N = "" ∨ jwk.E = "" then Except.error ErrKind.keyUnmarshalParameter
    else
      match base64urlTrailingPadding jwk.N with
      | none => Except.error ErrKind.base64Decode
      | some nB =>
        match base64urlTrailingPadding jwk.E with
        | none => Except.error ErrKind.base64Decode
        | some eB =>
          if options.asymmetricPrivate ∧ jwk.D ≠ "" ∧ jwk.P ≠ "" ∧ jwk.Q ≠ "" ∧
              jwk.DP ≠ "" ∧ jwk.DQ ≠ "" ∧ jwk.QI ≠ "" then
            match base64urlTrailingPadding jwk.D with
            | none => Except.error ErrKind.base64Decode
            | some dB =>
              match base64urlTrailingPadding jwk.P with
              | none => Except.error ErrKind.base64Decode
              | some pB =>
                match base64urlTrailingPadding jwk.Q with
                | none => Except.error ErrKind.base64Decode
                | some qB =>
                  match base64urlTrailingPadding jwk.DP with
                  | none => Except.error ErrKind.base64Decode
                  | some dpB =>
                    match base64urlTrailingPadding jwk.DQ with
                    | none => Except.error ErrKind.base64Decode
                    | some dqB =>
                      match base64urlTrailingPadding jwk.QI with
                      | none => Except.error ErrKind.base64Decode
                      | some qiB =>
                        match unmarshalOth jwk.OTH with
                        | Except.error e => Except.error e
                        | Except.ok (crts, extraPrimes) =>
                          if rsaValidate (natFromBytes nB)
                              (goIntOfUint64 (natFromBytes eB)) (natFromBytes dB)
                              ([natFromBytes pB, natFromBytes qB] ++ extraPrimes) then
                            Except.ok ⟨some (GoKey.rsaPriv
                              { n := natFromBytes nB,
                                e := goIntOfUint64 (natFromBytes eB),
                                d := natFromBytes dB,
                                primes := [natFromBytes pB, natFromBytes qB] ++ extraPrimes,
                                dp := natFromBytes dpB,
                                dq := natFromBytes dqB,
                                qinv := natFromBytes qiB,
                                crtValues := crts }), jwk.KID⟩
                          else Except.error ErrKind.rsaValidate
          else if ¬ options.asymmetricPrivate then
            Except.ok ⟨some (GoKey.rsaPub (natFromBytes nB)
              (goIntOfUint64 (natFromBytes eB))), jwk.KID⟩
          else Except.ok ⟨none, jwk.KID⟩
  else if jwk.KTY = "oct" then
    if options.symmetric then
      if jwk.K = "" then Except.error ErrKind.keyUnmarshalParameter
      else
        match base64urlTrailingPadding jwk.K with
        | none => Except.error ErrKind.base64Decode
        | some key => Except.ok ⟨some (GoKey.octKey key), jwk.KID⟩
    else Except.error ErrKind.unsupportedKeyType
  else Except.error ErrKind.unsupportedKeyType

/-- The JSON method of JWKSet (jwk.go, first listing lines 129 to 153), taken
at a snapshot already read from storage: marshal every key with
AsymmetricPrivate false (and the zero valued Symmetric false), skip a key
whose marshal failure is the unsupported key type category, abort on any other
failure, and collect the records of the keys field in snapshot order. The
final JSON serialization of the collected list is outside the model. -/
def JWKSetJSON (snapshot : List KeyWithMeta) : Except ErrKind (List JWKMarshal) :=
  match snapshot with
  | [] => Except.ok []
  | meta :: rest =>
    match KeyMarshal meta ⟨false, false⟩ with
    | Except.error e =>
        if e = ErrKind.unsupportedKeyType then JWKSetJSON rest
        else Except.error e
    | Except.ok jwk =>
        match JWKSetJSON rest with
        | Except.error e => Except.error e
        | Except.ok jwks => Except.ok (jwk :: jwks)

/-- Marshal followed by unmarshal, the composite of claim C1. -/
def marshalRoundTrip (meta : KeyWithMeta) (mo : KeyMarshalOptions)
    (uo : KeyUnmarshalOptions) : Except ErrKind KeyWithMeta :=
  Except.bind (KeyMarshal meta mo) (fun jwk => KeyUnmarshal jwk uo)

/-- The RSA wire record used on claim C2: kty RSA with all six private fields
present and decodable (n is 5, e is 3, d is 3, p and q are 2, dp, dq and qi
are 1), yet internally inconsistent since the primes 2 and 2 do not multiply
to the modulus 5. -/
def rsaBadRecord : JWKMarshal :=
  { KTY := "RSA", N := "BQ", E := "Aw", D := "Aw", P := "Ag", Q := "Ag",
    DP := "AQ", DQ := "AQ", QI := "AQ" }

/-- The prime field of the P-256 curve, from the SEC 2 parameters; used only
to exhibit a point that does not lie on the curve. -/
def pP256 : Nat :=
  115792089210356248762697446949407573530086143415290314195533631308867097853951

/-- The coefficient b of the P-256 curve equation, from the SEC 2 parameters. -/
def bP256 : Nat :=
  41058363725152142129326129780047268409114441015993725554835256314039467401291

/-- The P-256 curve equation y ^ 2 = x ^ 3 - 3 x + b over the prime field;
true exactly when the point lies on the curve. -/
def onCurveP256 (x y : Nat) : Bool :=
  (y * y) % pP256 ==
    (x * x * x + bP256 + (pP256 - 3 * x % pP256)) % pP256

/-! Lemmas about the base64url codec and the byte encoding of naturals. -/

theorem charToSextet_sextetToChar :
    ∀ n : Nat, n < 64 → charToSextet (sextetToChar n) = some n := by decide

theorem sextetToChar_ne_pad :
    ∀ n : Nat, n < 64 → sextetToChar n ≠ Char.ofNat 61 := by decide

theorem b64decodeChars_encodeBytes :
    ∀ bs : List Nat, (∀ b ∈ bs, b < 256) →
      b64decodeChars (b64encodeBytes bs) = some bs := by
  intro bs
  induction bs using b64encodeBytes.induct with
  | case1 => intro _; rfl
  | case2 b1 =>
      intro h
      have hb1 : b1 < 256 := h b1 (by simp)
      simp only [b64encodeBytes, b64decodeChars,
        charToSextet_sextetToChar _ (show b1 / 4 < 64 by omega),
        charToSextet_sextetToChar _ (show b1 % 4 * 16 < 64 by omega)]
      simp only [Option.some.injEq, List.cons.injEq, and_true]
      omega
  | case3 b1 b2 =>
      intro h
      have hb1 : b1 < 256 := h b1 (by simp)
      have hb2 : b2 < 256 := h b2 (by simp)
      simp only [b64encodeBytes, b64decodeChars,
        charToSextet_sextetToChar _ (show b1 / 4 < 64 by omega),
        charToSextet_sextetToChar _ (show b1 % 4 * 16 + b2 / 16 < 64 by omega),
        charToSextet_sextetToChar _ (show b2 % 16 * 4 < 64 by omega)]
      simp only [Option.some.injEq, List.cons.injEq, and_true]
      constructor
      · omega
      · omega
  | case4 b1 b2 b3 rest ih =>
      intro h
      have hb1 : b1 < 256 := h b1 (by simp)
      have hb2 : b2 < 256 := h b2 (by simp)
      have hb3 : b3 < 256 := h b3 (by simp)
      have hrest : ∀ b ∈ rest, b < 256 := by
        intro b hb; exact h b (by simp [hb])
      simp only [b64encodeBytes, b64decodeChars,
        charToSextet_sextetToChar _ (show b1 / 4 < 64 by omega),
        charToSextet_sextetToChar _ (show b1 % 4 * 16 + b2 / 16 < 64 by omega),
        charToSextet_sextetToChar _ (show b2 % 16 * 4 + b3 / 64 < 64 by omega),
        charToSextet_sextetToChar _ (show b3 % 64 < 64 by omega),
        ih hrest]
      simp only [Option.some.injEq, List.cons.injEq, and_true]
      refine ⟨by omega, by omega, by omega⟩

theorem mem_b64encodeBytes_ne_pad :
    ∀ bs : List Nat, (∀ b ∈ bs, b < 256) →
      ∀ c ∈ b64encodeBytes bs, c ≠ Char.ofNat 61 := by
  intro bs
  induction bs using b64encodeBytes.induct with
  | case1 => intro _ c hc; simp [b64encodeBytes] at hc
  | case2 b1 =>
      intro h c hc
      have hb1 : b1 < 256 := h b1 (by simp)
      simp only [b64encodeBytes, List.mem_cons, List.not_mem_nil, or_false] at hc
      rcases hc with rfl | rfl
      · exact sextetToChar_ne_pad _ (by omega)
      · exact sextetToChar_ne_pad _ (by omega)
  | case3 b1 b2 =>
      intro h c hc
      have hb1 : b1 < 256 := h b1 (by simp)
      have hb2 : b2 < 256 := h b2 (by simp)
      simp only [b64encodeBytes, List.mem_cons, List.not_mem_nil, or_false] at hc
      rcases hc with rfl | rfl | rfl
      · exact sextetToChar_ne_pad _ (by omega)
      · exact sextetToChar_ne_pad _ (by omega)
      · exact sextetToChar_ne_pad _ (by omega)
  | case4 b1 b2 b3 rest ih =>
      intro h c hc
      have hb1 : b1 < 256 := h b1 (by simp)
      have hb2 : b2 < 256 := h b2 (by simp)
      have hb3 : b3 < 256 := h b3 (by simp)
      have hrest : ∀ b ∈ rest, b < 256 := by
        intro b hb; exact h b (by simp [hb])
      simp only [b64encodeBytes, List.mem_cons] at hc
      rcases hc with rfl | rfl | rfl | rfl | hc
      · exact sextetToChar_ne_pad _ (by omega)
      · exact sextetToChar_ne_pad _ (by omega)
      · exact sextetToChar_ne_pad _ (by omega)
      · exact sextetToChar_ne_pad _ (by omega)
      · exact ih hrest c hc

theorem dropWhile_pad_eq_self {l : List Char}
    (h : ∀ c ∈ l, c ≠ Char.ofNat 61) :
    l.dropWhile (fun c => c == Char.ofNat 61) = l := by
  cases l with
  | nil => rfl
  | cons c cs =>
      have hne : (c == Char.ofNat 61) = false := by
        rw [beq_eq_false_iff_ne]
        exact h c (by simp)
      simp [List.dropWhile_cons, hne]

theorem trimRightEqs_of_no_pad {s : String}
    (h : ∀ c ∈ s.data, c ≠ Char.ofNat 61) :
    trimRightEqs s = s := by
  cases s with
  | mk data =>
    simp only [trimRightEqs]
    rw [dropWhile_pad_eq_self, List.reverse_reverse]
    intro c hc
    exact h c (by simpa using hc)

theorem dropWhile_pad_append (k : Nat) (l : List Char) :
    (List.replicate k (Char.ofNat 61) ++ l).dropWhile (fun c => c == Char.ofNat 61) =
      l.dropWhile (fun c => c == Char.ofNat 61) := by
  induction k with
  | zero => rfl
  | succ k ih => simp [List.replicate_succ, List.dropWhile_cons, ih]

theorem trimRightEqs_append_pad (s : String) (k : Nat)
    (h : ∀ c ∈ s.data, c ≠ Char.ofNat 61) :
    trimRightEqs (String.mk (s.data ++ List.replicate k (Char.ofNat 61))) = s := by
  cases s with
  | mk data =>
    simp only [trimRightEqs]
    rw [List.reverse_append, List.reverse_replicate, dropWhile_pad_append,
      dropWhile_pad_eq_self, List.reverse_reverse]
    intro c hc
    exact h c (by simpa using hc)

theorem base64urlTrailingPadding_encode (bs : List Nat)
    (h : ∀ b ∈ bs, b < 256) :
    base64urlTrailingPadding (base64RawURLEncode bs) = some bs := by
  unfold base64urlTrailingPadding base64RawURLDecode
  rw [trimRightEqs_of_no_pad]
  · exact b64decodeChars_encodeBytes bs h
  · intro c hc
    exact mem_b64encodeBytes_ne_pad bs h c (by simpa [base64RawURLEncode] using hc)

theorem string_append_eq_mk (s t : String) :
    s ++ t = String.mk (s.data ++ t.data) := by
  cases s; cases t; rfl

theorem natFromBytes_append_one (l : List Nat) (b : Nat) :
    natFromBytes (l ++ [b]) = natFromBytes l * 256 + b := by
  simp [natFromBytes, List.foldl_append]

theorem natFromBytes_natToBytesAux :
    ∀ fuel n : Nat, n ≤ fuel → natFromBytes (natToBytesAux fuel n) = n := by
  intro fuel
  induction fuel with
  | zero =>
      intro n hn
      have h0 : n = 0 := by omega
      subst h0; rfl
  | succ fuel ih =>
      intro n hn
      by_cases h0 : n = 0
      · subst h0; rfl
      · rw [natToBytesAux, if_neg h0, natFromBytes_append_one, ih _ (by omega)]
        omega

theorem natFromBytes_natToBytes (n : Nat) : natFromBytes (natToBytes n) = n :=
  natFromBytes_natToBytesAux n n (Nat.le_refl n)

theorem natToBytesAux_lt :
    ∀ fuel n : Nat, ∀ b ∈ natToBytesAux fuel n, b < 256 := by
  intro fuel
  induction fuel with
  | zero => intro n b hb; simp [natToBytesAux] at hb
  | succ fuel ih =>
      intro n b hb
      rw [natToBytesAux] at hb
      by_cases h0 : n = 0
      · rw [if_pos h0] at hb; simp at hb
      · rw [if_neg h0] at hb
        rcases List.mem_append.mp hb with hm | hm
        · exact ih _ b hm
        · simp at hm; omega

theorem natToBytes_lt (n : Nat) : ∀ b ∈ natToBytes n, b < 256 :=
  natToBytesAux_lt n n

theorem natToBytes_ne_nil {n : Nat} (h : 0 < n) : natToBytes n ≠ [] := by
  cases n with
  | zero => omega
  | succ m =>
      unfold natToBytes natToBytesAux
      rw [if_neg (by omega)]
      simp

theorem stringMk_cons_ne_empty (c : Char) (l : List Char) :
    String.mk (c :: l) ≠ "" := by
  intro h
  have h2 : c :: l = ([] : List Char) := congrArg String.data h
  cases h2

theorem base64RawURLEncode_ne_empty {bs : List Nat} (h : bs ≠ []) :
    base64RawURLEncode bs ≠ "" := by
  cases bs with
  | nil => exact absurd rfl h
  | cons b1 rest1 =>
    cases rest1 with
    | nil => exact stringMk_cons_ne_empty _ _
    | cons b2 rest2 =>
      cases rest2 with
      | nil => exact stringMk_cons_ne_empty _ _
      | cons b3 rest3 => exact stringMk_cons_ne_empty _ _

theorem bigIntToBase64RawURL_ne_empty {n : Nat} (h : 0 < n) :
    bigIntToBase64RawURL n ≠ "" :=
  base64RawURLEncode_ne_empty (natToBytes_ne_nil h)

theorem resolveECCurve_name : ∀ c : ECCurve, resolveECCurve c.name = some c := by
  intro c; cases c <;> rfl

theorem eccurve_name_ne_empty : ∀ c : ECCurve, c.name ≠ "" := by
  intro c; cases c <;> decide

theorem goIntOfUint64_natAbs {e : Int} (h0 : 0 ≤ e) (h1 : e < 2 ^ 63) :
    goIntOfUint64 e.natAbs = e := by
  unfold goIntOfUint64
  have hlt : e.natAbs % 2 ^ 64 = e.natAbs := by
    apply Nat.mod_eq_of_lt
    have : (2:Nat) ^ 63 < 2 ^ 64 := by norm_num
    omega
  rw [if_pos]
  · omega
  · omega

/-! Claim theorems. -/

/-- C3: for every Ed25519 private key (64 bytes, seed then public half),
KeyMarshal with AsymmetricPrivate set produces kty OKP, crv Ed25519, alg
EdDSA, x the base64url form of the 32 byte public half and d the base64url
form of exactly the 32 byte seed half, never the full expanded secret; with
AsymmetricPrivate clear the d field is absent (empty under omitempty). -/
theorem C3_ed25519_private_marshal (key : List Nat) (kid : String)
    (s1 s2 : Bool) (h : key.length = 64) :
    KeyMarshal ⟨some (GoKey.edPriv key), kid⟩ ⟨true, s1⟩ =
        Except.ok
          { ALG := "EdDSA", CRV := "Ed25519",
            X := base64RawURLEncode (key.drop 32), KTY := "OKP",
            D := base64RawURLEncode (key.take 32), KID := kid } ∧
      (key.take 32).length = 32 ∧ (key.drop 32).length = 32 ∧
      KeyMarshal ⟨some (GoKey.edPriv key), kid⟩ ⟨false, s2⟩ =
        Except.ok
          { ALG := "EdDSA", CRV := "Ed25519",
            X := base64RawURLEncode (key.drop 32), KTY := "OKP",
            D := "", KID := kid } := by
  refine ⟨rfl, ?_, ?_, rfl⟩
  · simp [List.length_take, h]
  · simp [List.length_drop, h]

/-- C3 witness: the theorem applied to a concrete 64 byte key. -/
theorem C3_ed25519_private_marshal_witness :
    KeyMarshal ⟨some (GoKey.edPriv (List.replicate 64 7)), "kw"⟩ ⟨true, false⟩ =
      Except.ok
        { ALG := "EdDSA", CRV := "Ed25519",
          X := base64RawURLEncode ((List.replicate 64 7).drop 32), KTY := "OKP",
          D := base64RawURLEncode ((List.replicate 64 7).take 32), KID := "kw" } :=
  (C3_ed25519_private_marshal (List.replicate 64 7) "kw" false false (by decide)).1

/-- C5: marshaling an Ed25519 public key of 32 bytes with key id k1 and
private material withheld produces exactly the record with kty OKP, crv
Ed25519, alg EdDSA, x the base64url form of the key, kid k1, and every other
field left at its absent (empty) state; in particular d is absent. -/
theorem C5_ed25519_public_marshal (X : List Nat) (s : Bool) (h : X.length = 32) :
    KeyMarshal ⟨some (GoKey.edPub X), "k1"⟩ ⟨false, s⟩ =
      Except.ok
        { ALG := "EdDSA", CRV := "Ed25519",
          X := base64RawURLEncode X, KTY := "OKP", KID := "k1" } ∧
    ({ ALG := "EdDSA", CRV := "Ed25519", X := base64RawURLEncode X,
        KTY := "OKP", KID := "k1" } : JWKMarshal).D = "" :=
  ⟨rfl, rfl⟩

/-- C5 witness: the theorem applied to a concrete 32 byte key. -/
theorem C5_ed25519_public_marshal_witness :
    KeyMarshal ⟨some (GoKey.edPub (List.replicate 32 1)), "k1"⟩ ⟨false, false⟩ =
      Except.ok
        { ALG := "EdDSA", CRV := "Ed25519",
          X := base64RawURLEncode (List.replicate 32 1), KTY := "OKP", KID := "k1" } :=
  (C5_ed25519_public_marshal (List.replicate 32 1) false (by decide)).1

/-- C6: a raw byte key marshaled with Symmetric false fails with the
unsupported key type category, and an oct record unmarshaled with Symmetric
false fails the same way. -/
theorem C6_symmetric_disallowed :
    (∀ (bs : List Nat) (kid : String) (p : Bool),
      KeyMarshal ⟨some (GoKey.octKey bs), kid⟩ ⟨p, false⟩ =
        Except.error ErrKind.unsupportedKeyType) ∧
    (∀ (jwk : JWKMarshal) (p : Bool), jwk.KTY = "oct" →
      KeyUnmarshal jwk ⟨p, false⟩ = Except.error ErrKind.unsupportedKeyType) := by
  constructor
  · intro bs kid p; rfl
  · intro jwk p h
    simp [KeyUnmarshal, h]

/-- C6 witness: both parts of the theorem at concrete inputs. -/
theorem C6_symmetric_disallowed_witness :
    KeyMarshal ⟨some (GoKey.octKey [1, 2]), "kw"⟩ ⟨false, false⟩ =
        Except.error ErrKind.unsupportedKeyType ∧
      KeyUnmarshal { KTY := "oct", K := "AQ" } ⟨false, false⟩ =
        Except.error ErrKind.unsupportedKeyType :=
  ⟨C6_symmetric_disallowed.1 [1, 2] "kw" false,
    C6_symmetric_disallowed.2 { KTY := "oct", K := "AQ" } false rfl⟩

/-- C8: decoding the unpadded base64url encoding of any byte string with one
or two trailing padding characters appended succeeds and yields the same
bytes as decoding the unpadded form. -/
theorem C8_padding_tolerance (b : List Nat) (h : ∀ x ∈ b, x < 256) :
    base64urlTrailingPadding (base64RawURLEncode b) = some b ∧
    base64urlTrailingPadding (base64RawURLEncode b ++ "=") = some b ∧
    base64urlTrailingPadding (base64RawURLEncode b ++ "==") = some b := by
  have hnp : ∀ c ∈ (base64RawURLEncode b).data, c ≠ Char.ofNat 61 := by
    intro c hc
    exact mem_b64encodeBytes_ne_pad b h c (by simpa [base64RawURLEncode] using hc)
  refine ⟨base64urlTrailingPadding_encode b h, ?_, ?_⟩
  · rw [string_append_eq_mk]
    have hd : ("=" : String).data = List.replicate 1 (Char.ofNat 61) := by decide
    rw [hd]
    unfold base64urlTrailingPadding base64RawURLDecode
    rw [trimRightEqs_append_pad _ _ hnp]
    exact b64decodeChars_encodeBytes b h
  · rw [string_append_eq_mk]
    have hd : ("==" : String).data = List.replicate 2 (Char.ofNat 61) := by decide
    rw [hd]
    unfold base64urlTrailingPadding base64RawURLDecode
    rw [trimRightEqs_append_pad _ _ hnp]
    exact b64decodeChars_encodeBytes b h

/-- C8 witness: the theorem at a concrete byte string. -/
theorem C8_padding_tolerance_witness :
    base64urlTrailingPadding (base64RawURLEncode [1, 2, 3] ++ "=") = some [1, 2, 3] :=
  (C8_padding_tolerance [1, 2, 3] (by decide)).2.1

/-- C9: an RSA record with modulus and exponent present, requested with
AsymmetricPrivate true, whose six private fields are not all present, is
unmarshaled to success with a nil key: neither an error nor the public key. -/
theorem C9_rsa_private_missing_field_nil_key (jwk : JWKMarshal)
    (uo : KeyUnmarshalOptions) (nb eb : List Nat)
    (hk : jwk.KTY = "RSA") (hn : jwk.N ≠ "") (he : jwk.E ≠ "")
    (hdn : base64urlTrailingPadding jwk.N = some nb)
    (hde : base64urlTrailingPadding jwk.E = some eb)
    (hpriv : uo.asymmetricPrivate = true)
    (hmiss : jwk.D = "" ∨ jwk.P = "" ∨ jwk.Q = "" ∨ jwk.DP = "" ∨
      jwk.DQ = "" ∨ jwk.QI = "") :
    KeyUnmarshal jwk uo = Except.ok ⟨none, jwk.KID⟩ := by
  rcases hmiss with hm | hm | hm | hm | hm | hm <;>
    simp [KeyUnmarshal, hk, hn, he, hdn, hde, hpriv, hm]

/-- C9 witness: the theorem at a concrete record lacking every private field. -/
theorem C9_rsa_private_missing_field_nil_key_witness :
    KeyUnmarshal { KTY := "RSA", N := "BQ", E := "Aw" } ⟨true, false⟩ =
      Except.ok ⟨none, ""⟩ :=
  C9_rsa_private_missing_field_nil_key { KTY := "RSA", N := "BQ", E := "Aw" }
    ⟨true, false⟩ [5] [3] rfl (by decide) (by decide) (by decide) (by decide)
    rfl (Or.inl rfl)

/-- C4: an OKP record whose x field decodes to a byte length other than 32 is
rejected with the parameter error category under every option pair, and an
OKP record whose crv is not Ed25519 is rejected (also with the parameter
error category). -/
theorem C4_okp_x_length_and_curve :
    (∀ (jwk : JWKMarshal) (uo : KeyUnmarshalOptions) (bs : List Nat),
      jwk.KTY = "OKP" → base64urlTrailingPadding jwk.X = some bs →
        bs.length ≠ 32 →
        KeyUnmarshal jwk uo = Except.error ErrKind.keyUnmarshalParameter) ∧
    (∀ (jwk : JWKMarshal) (uo : KeyUnmarshalOptions),
      jwk.KTY = "OKP" → jwk.CRV ≠ "Ed25519" →
        KeyUnmarshal jwk uo = Except.error ErrKind.keyUnmarshalParameter) := by
  constructor
  · intro jwk uo bs hk hx hlen
    by_cases hcrv : jwk.CRV = "Ed25519"
    · by_cases hxe : jwk.X = ""
      · simp [KeyUnmarshal, hk, hcrv, hxe]
      · simp [KeyUnmarshal, hk, hcrv, hxe, hx, hlen]
    · simp [KeyUnmarshal, hk, hcrv]
  · intro jwk uo hk hcrv
    simp [KeyUnmarshal, hk, hcrv]

/-- C4 witness: the first part of the theorem at a record whose x decodes to
one byte. -/
theorem C4_okp_x_length_and_curve_witness :
    KeyUnmarshal { KTY := "OKP", CRV := "Ed25519", X := "AQ" } ⟨false, false⟩ =
      Except.error ErrKind.keyUnmarshalParameter :=
  C4_okp_x_length_and_curve.1 { KTY := "OKP", CRV := "Ed25519", X := "AQ" }
    ⟨false, false⟩ [1] rfl (by decide) (by decide)

/-- C10: an EC record with a supported curve name and decodable x and y,
unmarshaled with AsymmetricPrivate false, succeeds with the public key built
from those coordinates; no membership check against the curve equation is
performed, so the conclusion holds whether or not the point lies on the
curve. -/
theorem C10_ec_no_curve_check (jwk : JWKMarshal) (sym : Bool) (c : ECCurve)
    (xb yb : List Nat)
    (hk : jwk.KTY = "EC") (hcrv : resolveECCurve jwk.CRV = some c)
    (hxe : jwk.X ≠ "") (hye : jwk.Y ≠ "")
    (hx : base64urlTrailingPadding jwk.X = some xb)
    (hy : base64urlTrailingPadding jwk.Y = some yb) :
    KeyUnmarshal jwk ⟨false, sym⟩ =
      Except.ok ⟨some (GoKey.ecPub c (natFromBytes xb) (natFromBytes yb)),
        jwk.KID⟩ := by
  have hcrve : jwk.CRV ≠ "" := by
    intro hemp; rw [hemp] at hcrv; simp [resolveECCurve] at hcrv
  simp [KeyUnmarshal, hk, hcrve, hxe, hye, hx, hy, hcrv]

/-- C10 witness: the theorem at the point (1, 1), which satisfies all the
hypotheses yet does not lie on the P-256 curve. -/
theorem C10_ec_no_curve_check_witness :
    KeyUnmarshal { KTY := "EC", CRV := "P-256", X := "AQ", Y := "AQ" }
        ⟨false, false⟩ =
      Except.ok ⟨some (GoKey.ecPub ECCurve.p256 1 1), ""⟩ ∧
    onCurveP256 1 1 = false := by
  constructor
  · have h := C10_ec_no_curve_check
      { KTY := "EC", CRV := "P-256", X := "AQ", Y := "AQ" } false ECCurve.p256
      [1] [1] rfl (by decide) (by decide) (by decide) (by decide) (by decide)
    exact h
  · decide

theorem keyMarshal_error_unsupported :
    ∀ (meta : KeyWithMeta) (opts : KeyMarshalOptions),
      KeyMarshal meta opts = Except.error ErrKind.unsupportedKeyType ∨
        ∃ jwk, KeyMarshal meta opts = Except.ok jwk := by
  intro meta opts
  rcases meta with ⟨key, kid⟩
  cases key with
  | none => left; rfl
  | some k =>
    cases k with
    | ecPriv c x y d => right; exact ⟨_, rfl⟩
    | ecPub c x y => right; exact ⟨_, rfl⟩
    | edPriv bs => right; exact ⟨_, rfl⟩
    | edPub bs => right; exact ⟨_, rfl⟩
    | rsaPriv k => right; exact ⟨_, rfl⟩
    | rsaPub n e => right; exact ⟨_, rfl⟩
    | octKey bs =>
        by_cases hs : opts.symmetric
        · right
          exact ⟨{ KTY := "oct", K := base64RawURLEncode bs, KID := kid },
            by simp [KeyMarshal, hs]⟩
        · left; simp [KeyMarshal, hs]
    | unsupported t => left; rfl

/-- C7: the key set assembly marshals every snapshot key public only, drops
exactly the keys the codec rejects (all of whose rejections carry the
unsupported key type category, so no other failure can arise and the abort
branch is never taken), and a snapshot of one supported and one unsupported
key yields a one element list. -/
theorem C7_jwkset_json_drops_unsupported :
    (∀ snapshot : List KeyWithMeta,
      JWKSetJSON snapshot = Except.ok (snapshot.filterMap
        (fun meta => (KeyMarshal meta ⟨false, false⟩).toOption))) ∧
    (∀ (meta : KeyWithMeta) (opts : KeyMarshalOptions),
      KeyMarshal meta opts = Except.error ErrKind.unsupportedKeyType ∨
        ∃ jwk, KeyMarshal meta opts = Except.ok jwk) ∧
    JWKSetJSON [⟨some (GoKey.edPub (List.replicate 32 0)), "a"⟩,
        ⟨some (GoKey.unsupported ("int")), "b"⟩] =
      Except.ok
        [{ ALG := "EdDSA", CRV := "Ed25519",
           X := base64RawURLEncode (List.replicate 32 0), KTY := "OKP",
           KID := "a" }] := by
  refine ⟨?_, keyMarshal_error_unsupported, rfl⟩
  intro snapshot
  induction snapshot with
  | nil => rfl
  | cons meta rest ih =>
    rcases keyMarshal_error_unsupported meta ⟨false, false⟩ with he | ⟨jwk, hok⟩
    · simp [JWKSetJSON, he, ih, Except.toOption]
    · simp [JWKSetJSON, hok, ih, Except.toOption]

/-- C2 counterexample: on an RSA record carrying the six private fields with
internally inconsistent values, KeyUnmarshal with AsymmetricPrivate true
returns the wrapped RSA validation error, a category that is not the
parameter error category, so the claim as stated fails at this input. -/
theorem C2_counterexample :
    KeyUnmarshal rsaBadRecord ⟨true, false⟩ = Except.error ErrKind.rsaValidate ∧
      ErrKind.rsaValidate ≠ ErrKind.keyUnmarshalParameter ∧
      rsaValidate 5 (goIntOfUint64 3) 3 [2, 2] = false := by
  refine ⟨by decide, by decide, by decide⟩

/-- C2 amended: an RSA record (without extra prime entries) carrying all six
private fields with every field decodable, unmarshaled with AsymmetricPrivate
true, fails the RSA consistency check and is rejected with an error — but the
error is the wrapped validation error, which is tagged with neither sentinel,
rather than an error of the KeyUnmarshalParameter category. -/
theorem C2_amended_validation_error (jwk : JWKMarshal) (uo : KeyUnmarshalOptions)
    (nb eb db pb qb dpb dqb qib : List Nat)
    (hk : jwk.KTY = "RSA") (hoth : jwk.OTH = [])
    (hn : jwk.N ≠ "") (he : jwk.E ≠ "") (hd : jwk.D ≠ "") (hp : jwk.P ≠ "")
    (hq : jwk.Q ≠ "") (hdp : jwk.DP ≠ "") (hdq : jwk.DQ ≠ "") (hqi : jwk.QI ≠ "")
    (hpriv : uo.asymmetricPrivate = true)
    (hdn : base64urlTrailingPadding jwk.N = some nb)
    (hde : base64urlTrailingPadding jwk.E = some eb)
    (hdd : base64urlTrailingPadding jwk.D = some db)
    (hdp2 : base64urlTrailingPadding jwk.P = some pb)
    (hdq2 : base64urlTrailingPadding jwk.Q = some qb)
    (hddp : base64urlTrailingPadding jwk.DP = some dpb)
    (hddq : base64urlTrailingPadding jwk.DQ = some dqb)
    (hdqi : base64urlTrailingPadding jwk.QI = some qib)
    (hval : rsaValidate (natFromBytes nb) (goIntOfUint64 (natFromBytes eb))
      (natFromBytes db) [natFromBytes pb, natFromBytes qb] = false) :
    KeyUnmarshal jwk uo = Except.error ErrKind.rsaValidate := by
  simp [KeyUnmarshal, hk, hoth, hn, he, hd, hp, hq, hdp, hdq, hqi, hpriv,
    hdn, hde, hdd, hdp2, hdq2, hddp, hddq, hdqi, unmarshalOth, hval]

/-- C2 amended witness: the amended theorem at the concrete inconsistent
record. -/
theorem C2_amended_validation_error_witness :
    KeyUnmarshal rsaBadRecord ⟨true, false⟩ = Except.error ErrKind.rsaValidate :=
  C2_amended_validation_error rsaBadRecord ⟨true, false⟩
    [5] [3] [3] [2] [2] [1] [1] [1]
    rfl rfl (by decide) (by decide) (by decide) (by decide) (by decide)
    (by decide) (by decide) (by decide) rfl (by decide) (by decide) (by decide)
    (by decide) (by decide) (by decide) (by decide) (by decide) (by decide)

/-- C1 counterexample: an RSA public key marshaled public only and
unmarshaled with options requesting at least as much material (private
requested) yields success with a nil key, not a key equivalent to the
original, so the claim as stated fails at this input. -/
theorem C1_roundtrip_counterexample :
    marshalRoundTrip ⟨some (GoKey.rsaPub 5 3), "k1"⟩ ⟨false, false⟩ ⟨true, false⟩ =
        Except.ok ⟨none, "k1"⟩ ∧
      (⟨none, "k1"⟩ : KeyWithMeta) ≠ ⟨some (GoKey.rsaPub 5 3), "k1"⟩ := by
  refine ⟨by decide, by decide⟩

theorem except_bind_ok {ε α β : Type} (a : α) (f : α → Except ε β) :
    Except.bind (Except.ok a) f = f a := rfl

/-- C1 amended: the marshal then unmarshal round trip reproduces the key
exactly, with the key id preserved, for every supported well formed key:
EC public keys with positive coordinates under every option pair; EC private
keys with positive coordinates and scalar with AsymmetricPrivate set on both
sides; Ed25519 public keys of 32 bytes under every option pair; Ed25519
private keys of 64 bytes with AsymmetricPrivate set on both sides; RSA public
keys with positive modulus and small positive exponent provided private
reconstruction is not requested (requesting it yields a nil key, the
counterexample); RSA private keys with exactly two primes, positive
components and a passing consistency check, with AsymmetricPrivate set on
both sides; and non empty symmetric byte keys with Symmetric set on both
sides. -/
theorem C1_roundtrip_amended :
    (∀ (c : ECCurve) (x y : Nat) (kid : String) (mo : KeyMarshalOptions)
        (uo : KeyUnmarshalOptions), 0 < x → 0 < y →
      marshalRoundTrip ⟨some (GoKey.ecPub c x y), kid⟩ mo uo =
        Except.ok ⟨some (GoKey.ecPub c x y), kid⟩) ∧
    (∀ (c : ECCurve) (x y d : Nat) (kid : String) (s1 s2 : Bool),
      0 < x → 0 < y → 0 < d →
      marshalRoundTrip ⟨some (GoKey.ecPriv c x y d), kid⟩ ⟨true, s1⟩ ⟨true, s2⟩ =
        Except.ok ⟨some (GoKey.ecPriv c x y d), kid⟩) ∧
    (∀ (bs : List Nat) (kid : String) (mo : KeyMarshalOptions)
        (uo : KeyUnmarshalOptions), bs.length = 32 → (∀ b ∈ bs, b < 256) →
      marshalRoundTrip ⟨some (GoKey.edPub bs), kid⟩ mo uo =
        Except.ok ⟨some (GoKey.edPub bs), kid⟩) ∧
    (∀ (bs : List Nat) (kid : String) (s1 s2 : Bool),
      bs.length = 64 → (∀ b ∈ bs, b < 256) →
      marshalRoundTrip ⟨some (GoKey.edPriv bs), kid⟩ ⟨true, s1⟩ ⟨true, s2⟩ =
        Except.ok ⟨some (GoKey.edPriv bs), kid⟩) ∧
    (∀ (n : Nat) (e : Int) (kid : String) (mo : KeyMarshalOptions) (s : Bool),
      0 < n → 0 < e → e < 2 ^ 63 →
      marshalRoundTrip ⟨some (GoKey.rsaPub n e), kid⟩ mo ⟨false, s⟩ =
        Except.ok ⟨some (GoKey.rsaPub n e), kid⟩) ∧
    (∀ (n : Nat) (e : Int) (d p q dp0 dq0 qi : Nat) (kid : String) (s1 s2 : Bool),
      0 < n → 0 < d → 0 < dp0 → 0 < dq0 → 0 < qi →
      rsaValidate n e d [p, q] = true →
      marshalRoundTrip
          ⟨some (GoKey.rsaPriv ⟨n, e, d, [p, q], dp0, dq0, qi, []⟩), kid⟩
          ⟨true, s1⟩ ⟨true, s2⟩ =
        Except.ok ⟨some (GoKey.rsaPriv ⟨n, e, d, [p, q], dp0, dq0, qi, []⟩), kid⟩) ∧
    (∀ (bs : List Nat) (kid : String) (p1 p2 : Bool),
      bs ≠ [] → (∀ b ∈ bs, b < 256) →
      marshalRoundTrip ⟨some (GoKey.octKey bs), kid⟩ ⟨p1, true⟩ ⟨p2, true⟩ =
        Except.ok ⟨some (GoKey.octKey bs), kid⟩) := by
  refine ⟨?_, ?_, ?_, ?_, ?_, ?_, ?_⟩
  · intro c x y kid mo uo hx hy
    have hxe := bigIntToBase64RawURL_ne_empty hx
    have hye := bigIntToBase64RawURL_ne_empty hy
    have hdx : base64urlTrailingPadding (bigIntToBase64RawURL x) =
        some (natToBytes x) :=
      base64urlTrailingPadding_encode _ (natToBytes_lt x)
    have hdy : base64urlTrailingPadding (bigIntToBase64RawURL y) =
        some (natToBytes y) :=
      base64urlTrailingPadding_encode _ (natToBytes_lt y)
    have hce := eccurve_name_ne_empty c
    simp [marshalRoundTrip, KeyMarshal, KeyUnmarshal, except_bind_ok, hxe, hye,
      hdx, hdy, hce, resolveECCurve_name, natFromBytes_natToBytes]
  · intro c x y d kid s1 s2 hx hy hd
    have hxe := bigIntToBase64RawURL_ne_empty hx
    have hye := bigIntToBase64RawURL_ne_empty hy
    have hde := bigIntToBase64RawURL_ne_empty hd
    have hdx : base64urlTrailingPadding (bigIntToBase64RawURL x) =
        some (natToBytes x) :=
      base64urlTrailingPadding_encode _ (natToBytes_lt x)
    have hdy : base64urlTrailingPadding (bigIntToBase64RawURL y) =
        some (natToBytes y) :=
      base64urlTrailingPadding_encode _ (natToBytes_lt y)
    have hdd : base64urlTrailingPadding (bigIntToBase64RawURL d) =
        some (natToBytes d) :=
      base64urlTrailingPadding_encode _ (natToBytes_lt d)
    have hce := eccurve_name_ne_empty c
    simp [marshalRoundTrip, KeyMarshal, KeyUnmarshal, except_bind_ok, hxe, hye,
      hde, hdx, hdy, hdd, hce, resolveECCurve_name, natFromBytes_natToBytes]
  · intro bs kid mo uo hlen hb
    have hne : bs ≠ [] := by intro h0; rw [h0] at hlen; simp at hlen
    have hxe := base64RawURLEncode_ne_empty hne
    have hdx := base64urlTrailingPadding_encode bs hb
    simp [marshalRoundTrip, KeyMarshal, KeyUnmarshal, except_bind_ok, hxe, hdx,
      hlen]
  · intro bs kid s1 s2 hlen hb
    have hdl : (bs.drop 32).length = 32 := by simp [hlen]
    have htl : (bs.take 32).length = 32 := by simp [hlen]
    have hdne : bs.drop 32 ≠ [] := by intro h0; rw [h0] at hdl; simp at hdl
    have htne : bs.take 32 ≠ [] := by intro h0; rw [h0] at htl; simp at htl
    have hxe := base64RawURLEncode_ne_empty hdne
    have hde := base64RawURLEncode_ne_empty htne
    have hdx := base64urlTrailingPadding_encode (bs.drop 32)
      (fun b hb2 => hb b (List.drop_subset _ _ hb2))
    have hdd := base64urlTrailingPadding_encode (bs.take 32)
      (fun b hb2 => hb b (List.take_subset _ _ hb2))
    simp [marshalRoundTrip, KeyMarshal, KeyUnmarshal, except_bind_ok, hxe, hde,
      hdx, hdd, hdl, htl, List.take_append_drop]
  · intro n e kid mo s hn he heb
    have hna : 0 < e.natAbs := by omega
    have hne := bigIntToBase64RawURL_ne_empty hn
    have hee : base64RawURLEncode (natToBytes e.natAbs) ≠ "" :=
      base64RawURLEncode_ne_empty (natToBytes_ne_nil hna)
    have hdn : base64urlTrailingPadding (bigIntToBase64RawURL n) =
        some (natToBytes n) :=
      base64urlTrailingPadding_encode _ (natToBytes_lt n)
    have hde : base64urlTrailingPadding (base64RawURLEncode (natToBytes e.natAbs)) =
        some (natToBytes e.natAbs) :=
      base64urlTrailingPadding_encode _ (natToBytes_lt _)
    have hg : goIntOfUint64 e.natAbs = e := goIntOfUint64_natAbs (by omega) heb
    simp [marshalRoundTrip, KeyMarshal, KeyUnmarshal, except_bind_ok, hne, hee,
      hdn, hde, natFromBytes_natToBytes, hg]
  · intro n e d p q dp0 dq0 qi kid s1 s2 hn hd hdp hdq hqi hval
    have hval2 := hval
    simp only [rsaValidate, Bool.and_eq_true, List.all_eq_true, decide_eq_true_eq,
      beq_iff_eq] at hval2
    obtain ⟨⟨⟨hcp, hprimes⟩, hprod⟩, hcong⟩ := hval2
    simp only [checkPub, Bool.and_eq_true, decide_eq_true_eq] at hcp
    obtain ⟨h2e, heu⟩ := hcp
    have hpow : (2:Int) ^ 31 - 1 < 2 ^ 63 := by norm_num
    have heb : e < 2 ^ 63 := by omega
    have hp1 : 1 < p := hprimes p (by simp)
    have hq1 : 1 < q := hprimes q (by simp)
    have hna : 0 < e.natAbs := by omega
    have hg : goIntOfUint64 e.natAbs = e := goIntOfUint64_natAbs (by omega) heb
    have hnne := bigIntToBase64RawURL_ne_empty hn
    have hene : base64RawURLEncode (natToBytes e.natAbs) ≠ "" :=
      base64RawURLEncode_ne_empty (natToBytes_ne_nil hna)
    have hdne := bigIntToBase64RawURL_ne_empty hd
    have hpne := bigIntToBase64RawURL_ne_empty (show 0 < p by omega)
    have hqne := bigIntToBase64RawURL_ne_empty (show 0 < q by omega)
    have hdpne := bigIntToBase64RawURL_ne_empty hdp
    have hdqne := bigIntToBase64RawURL_ne_empty hdq
    have hqine := bigIntToBase64RawURL_ne_empty hqi
    have decN : base64urlTrailingPadding (bigIntToBase64RawURL n) =
        some (natToBytes n) :=
      base64urlTrailingPadding_encode _ (natToBytes_lt n)
    have decE : base64urlTrailingPadding (base64RawURLEncode (natToBytes e.natAbs)) =
        some (natToBytes e.natAbs) :=
      base64urlTrailingPadding_encode _ (natToBytes_lt _)
    have decD : base64urlTrailingPadding (bigIntToBase64RawURL d) =
        some (natToBytes d) :=
      base64urlTrailingPadding_encode _ (natToBytes_lt d)
    have decP : base64urlTrailingPadding (bigIntToBase64RawURL p) =
        some (natToBytes p) :=
      base64urlTrailingPadding_encode _ (natToBytes_lt p)
    have decQ : base64urlTrailingPadding (bigIntToBase64RawURL q) =
        some (natToBytes q) :=
      base64urlTrailingPadding_encode _ (natToBytes_lt q)
    have decDP : base64urlTrailingPadding (bigIntToBase64RawURL dp0) =
        some (natToBytes dp0) :=
      base64urlTrailingPadding_encode _ (natToBytes_lt dp0)
    have decDQ : base64urlTrailingPadding (bigIntToBase64RawURL dq0) =
        some (natToBytes dq0) :=
      base64urlTrailingPadding_encode _ (natToBytes_lt dq0)
    have decQI : base64urlTrailingPadding (bigIntToBase64RawURL qi) =
        some (natToBytes qi) :=
      base64urlTrailingPadding_encode _ (natToBytes_lt qi)
    simp [marshalRoundTrip, KeyMarshal, KeyUnmarshal, except_bind_ok, List.getD,
      unmarshalOth, hnne, hene, hdne, hpne, hqne, hdpne, hdqne, hqine,
      decN, decE, decD, decP, decQ, decDP, decDQ, decQI,
      natFromBytes_natToBytes, hg, hval]
  · intro bs kid p1 p2 hne hb
    have hke := base64RawURLEncode_ne_empty hne
    have hdk := base64urlTrailingPadding_encode bs hb
    simp [marshalRoundTrip, KeyMarshal, KeyUnmarshal, except_bind_ok, hke, hdk]

/-- C1 amended witness: the RSA private conjunct of the amended theorem at a
concrete consistent two prime key (n 33, e 3, d 7, primes 3 and 11). -/
theorem C1_roundtrip_amended_witness :
    marshalRoundTrip
        ⟨some (GoKey.rsaPriv ⟨33, 3, 7, [3, 11], 1, 7, 2, []⟩), "k1"⟩
        ⟨true, false⟩ ⟨true, false⟩ =
      Except.ok ⟨some (GoKey.rsaPriv ⟨33, 3, 7, [3, 11], 1, 7, 2, []⟩), "k1"⟩ :=
  C1_roundtrip_amended.2.2.2.2.2.1 33 3 7 3 11 1 7 2 "k1" false false
    (by decide) (by decide) (by decide) (by decide) (by decide) (by decide)
